import Mathlib

/-!
Verification development for the Drively repository.

Shallow embedding of the core of the application:
* `src/src/utils/streaks.js` — streak engine (pure functions over the drive list);
* `src/src/contexts/DrivingContext.js` — the reducer (Application State Coordinator);
* the storage module (`loadData`/`saveData` with backup fallback);
* the time utilities (`timeToMinutes` and the `isValidTime` format check).

Modelling conventions:
* calendar dates are integers (day numbers); the JS `Date` values produced from
  `YYYY-MM-DD` strings compare exactly like their day numbers, and "today"
  (`new Date()` truncated to midnight) is passed explicitly as a parameter,
  matching the injectable Clock of the specification;
* JS numbers are modelled as rationals (`ℚ`) where fractional arithmetic occurs
  (hour totals, `duration / 60`) and as `Nat`/`Int` where the code only ever
  holds integers;
* JS strings manipulated character-by-character (`split(':')`) are modelled as
  `List Char`;
* nullable / possibly-absent JSON fields are `Option`s; the truthiness checks of
  the source (`!data.user`) become `Option.isSome`.
-/

namespace Drively

/-- A drive session record. The fields carried here are exactly the ones the
core (reducer, streak engine, aggregator) reads: `id`, `date`, `duration`,
`isNightDrive`. The remaining free-form fields of the source record (weather,
skills, supervisor, destination, pausedTime) carry no invariants and are never
read by the core, so they are omitted from the embedding. `date` is an
`Option` because the streak engine filters out drives with a missing/falsy
`date` field. -/
structure Drive where
  id : Nat
  date : Option Int
  duration : ℚ
  isNightDrive : Bool
deriving DecidableEq, Repr

/-! ### Streak engine (`src/src/utils/streaks.js`) -/

/-- The date values of the drives that have a date
(`drives.filter(drive => drive.date).map(drive => drive.date)`). -/
def driveDates (drives : List Drive) : List Int :=
  drives.filterMap Drive.date

/-- The unique drive dates in descending order, as computed by
`calculateCurrentStreak`: the source sorts the (date-bearing) drives by date
descending with a stable sort and then deduplicates the projected dates with
`new Set` (which keeps first occurrences); projecting a date-sorted drive list
yields the sorted date list, so this equals sorting the projected dates and
deduplicating. -/
def uniqueDatesDesc (drives : List Drive) : List Int :=
  ((driveDates drives).insertionSort (· ≥ ·)).dedup

/-- The walk of `calculateCurrentStreak` (`streaks.js` lines 34–50): for each
unique date in descending order, the streak continues when the date equals the
current check date **or equals the fixed `yesterday` (today − 1)**; a date
strictly earlier than the check date breaks the walk; any other date (a future
date) is skipped. -/
def streakWalk (today : Int) : List Int → Int → Nat → Nat
  | [], _, streak => streak
  | d :: ds, checkDate, streak =>
    if d = checkDate ∨ d = today - 1 then
      streakWalk today ds (checkDate - 1) (streak + 1)
    else if d < checkDate then
      streak
    else
      streakWalk today ds checkDate streak

/-- `calculateCurrentStreak(drives)` from `streaks.js`, with the clock value
`today` passed explicitly. Returns 0 for an empty list; otherwise walks the
unique dates descending starting from `checkDate = today` with `streak = 0`.
(The source's early return for the all-dateless case is subsumed: the walk over
an empty unique-date list already returns 0.) -/
def calculateCurrentStreak (today : Int) (drives : List Drive) : Nat :=
  if drives.isEmpty then 0
  else streakWalk today (uniqueDatesDesc drives) today 0

/-- The scan of `calculateLongestStreak` (`streaks.js` lines 78–94): walk the
unique ascending dates pairwise; a gap of exactly one day extends the running
streak and updates the maximum, any other gap resets the running streak to 1.
(`Math.ceil` of the millisecond difference divided by a day is exact here since
unique calendar dates differ by whole days.) -/
def longestScan : List Int → Int → Nat → Nat → Nat
  | [], _, _, longestStreak => longestStreak
  | d :: ds, prev, currentStreak, longestStreak =>
    if d - prev = 1 then
      longestScan ds d (currentStreak + 1) (max longestStreak (currentStreak + 1))
    else
      longestScan ds d 1 longestStreak

/-- The unique drive dates in ascending order, as computed by
`calculateLongestStreak`: `new Set` over the raw date values (including the
missing ones), then the truthiness filter, then ascending sort. -/
def uniqueDatesAsc (drives : List Drive) : List Int :=
  (((drives.map Drive.date).dedup).filterMap id).insertionSort (· ≤ ·)

/-- `calculateLongestStreak(drives)` from `streaks.js`: 0 for an empty input or
when every drive lacks a date; otherwise the pairwise scan starting with
`currentStreak = longestStreak = 1` (hence 1 for a single date). -/
def calculateLongestStreak (drives : List Drive) : Nat :=
  if drives.isEmpty then 0
  else
    match uniqueDatesAsc drives with
    | [] => 0
    | d :: ds => longestScan ds d 1 1

/-- `canUseFreezeDay(freezeDaysUsedThisMonth, maxFreezeDaysPerMonth = 10)`
from `streaks.js`. -/
def canUseFreezeDay (freezeDaysUsedThisMonth : Nat)
    (maxFreezeDaysPerMonth : Nat := 10) : Bool :=
  decide (freezeDaysUsedThisMonth < maxFreezeDaysPerMonth)

/-! ### State and reducer (`src/src/contexts/DrivingContext.js`) -/

/-- The `user` record of the application state. -/
structure User where
  licenseType : Option String
  licenseDate : Option Int
  goalDayHours : ℚ
  goalNightHours : ℚ
  completedDayHours : ℚ
  completedNightHours : ℚ
  onboardingComplete : Bool
deriving DecidableEq, Repr

/-- The `streaks` record of the application state. -/
structure Streaks where
  current : Nat
  longest : Nat
  lastDriveDate : Option Int
  freezeDaysUsed : Nat
  freezeDaysThisMonth : Nat
  lastFreezeReset : Option Int
deriving DecidableEq, Repr

/-- The `settings` record of the application state. `temperatureUnit` is an
`Option` because the persisted default document (`DEFAULT_DATA` in the storage
module) omits the field. -/
structure Settings where
  nightTimeStart : String
  nightTimeEnd : String
  backupReminder : Bool
  lastBackupDate : Option Int
  temperatureUnit : Option String
deriving DecidableEq, Repr

/-- The in-memory application state owned by the Coordinator. -/
structure AppState where
  user : User
  drives : List Drive
  streaks : Streaks
  settings : Settings
  loading : Bool
  error : Option String
deriving DecidableEq, Repr

/-- `initialState` from `DrivingContext.js`. -/
def initialState : AppState where
  user := {
    licenseType := none
    licenseDate := none
    goalDayHours := 50
    goalNightHours := 10
    completedDayHours := 0
    completedNightHours := 0
    onboardingComplete := false }
  drives := []
  streaks := {
    current := 0
    longest := 0
    lastDriveDate := none
    freezeDaysUsed := 0
    freezeDaysThisMonth := 0
    lastFreezeReset := none }
  settings := {
    nightTimeStart := "18:00"
    nightTimeEnd := "06:00"
    backupReminder := true
    lastBackupDate := none
    temperatureUnit := some "metric" }
  loading := true
  error := none

/-- A partial update to the `user` record: the JS object-spread merge
`{...state.user, ...payload}` keeps each field unless the payload carries it. -/
structure UserPatch where
  licenseType : Option (Option String) := none
  licenseDate : Option (Option Int) := none
  goalDayHours : Option ℚ := none
  goalNightHours : Option ℚ := none
  completedDayHours : Option ℚ := none
  completedNightHours : Option ℚ := none
  onboardingComplete : Option Bool := none
deriving DecidableEq

/-- `{...user, ...patch}`. -/
def applyUserPatch (u : User) (p : UserPatch) : User where
  licenseType := p.licenseType.getD u.licenseType
  licenseDate := p.licenseDate.getD u.licenseDate
  goalDayHours := p.goalDayHours.getD u.goalDayHours
  goalNightHours := p.goalNightHours.getD u.goalNightHours
  completedDayHours := p.completedDayHours.getD u.completedDayHours
  completedNightHours := p.completedNightHours.getD u.completedNightHours
  onboardingComplete := p.onboardingComplete.getD u.onboardingComplete

/-- A partial update to the `streaks` record (payload of `UPDATE_STREAKS`). -/
structure StreaksPatch where
  current : Option Nat := none
  longest : Option Nat := none
  lastDriveDate : Option (Option Int) := none
  freezeDaysUsed : Option Nat := none
  freezeDaysThisMonth : Option Nat := none
  lastFreezeReset : Option (Option Int) := none
deriving DecidableEq

/-- `{...streaks, ...patch}`. -/
def applyStreaksPatch (s : Streaks) (p : StreaksPatch) : Streaks where
  current := p.current.getD s.current
  longest := p.longest.getD s.longest
  lastDriveDate := p.lastDriveDate.getD s.lastDriveDate
  freezeDaysUsed := p.freezeDaysUsed.getD s.freezeDaysUsed
  freezeDaysThisMonth := p.freezeDaysThisMonth.getD s.freezeDaysThisMonth
  lastFreezeReset := p.lastFreezeReset.getD s.lastFreezeReset

/-- A partial update to the `settings` record (payload of `UPDATE_SETTINGS`). -/
structure SettingsPatch where
  nightTimeStart : Option String := none
  nightTimeEnd : Option String := none
  backupReminder : Option Bool := none
  lastBackupDate : Option (Option Int) := none
  temperatureUnit : Option (Option String) := none
deriving DecidableEq

/-- `{...settings, ...patch}`. -/
def applySettingsPatch (s : Settings) (p : SettingsPatch) : Settings where
  nightTimeStart := p.nightTimeStart.getD s.nightTimeStart
  nightTimeEnd := p.nightTimeEnd.getD s.nightTimeEnd
  backupReminder := p.backupReminder.getD s.backupReminder
  lastBackupDate := p.lastBackupDate.getD s.lastBackupDate
  temperatureUnit := p.temperatureUnit.getD s.temperatureUnit

/-- The actions dispatched to `drivingReducer`. `LOAD_DATA` (which replaces the
whole state with the document read back from the store at startup) is not a
Coordinator transition and none of the claims quantify over it, so it is not
modelled. -/
inductive Action where
  | setUserInfo (payload : UserPatch)
  | addDrive (payload : Drive)
  | updateDrive (payload : Drive)
  | deleteDrive (payload : Nat)
  | updateStreaks (payload : StreaksPatch)
  | useFreezeDay
  | updateSettings (payload : SettingsPatch)
  | completeOnboarding
  | resetData
deriving DecidableEq

/-- The inline `reduce((sum, d) => sum + d.duration / 60, 0)` used (twice each)
by the `UPDATE_DRIVE` and `DELETE_DRIVE` cases. -/
def hoursSum (drives : List Drive) : ℚ :=
  drives.foldl (fun sum d => sum + d.duration / 60) 0

/-- `drivingReducer(state, action)` from `DrivingContext.js`, with the clock
value `today` passed explicitly (it is consumed by `calculateCurrentStreak`).
Each case is a direct transcription of the corresponding `switch` case. -/
def drivingReducer (today : Int) (state : AppState) (action : Action) : AppState :=
  match action with
  | .setUserInfo payload =>
    { state with user := applyUserPatch state.user payload }
  | .addDrive payload =>
    let newDrives := state.drives ++ [payload]
    let updatedStreaks : Streaks :=
      { state.streaks with
        current := calculateCurrentStreak today newDrives
        longest := max state.streaks.longest (calculateLongestStreak newDrives)
        lastDriveDate := payload.date }
    { state with
      drives := newDrives
      streaks := updatedStreaks
      user := { state.user with
        completedDayHours := state.user.completedDayHours +
          (if payload.isNightDrive then 0 else payload.duration / 60)
        completedNightHours := state.user.completedNightHours +
          (if payload.isNightDrive then payload.duration / 60 else 0) } }
  | .updateDrive payload =>
    let updatedDrives := state.drives.map fun drive =>
      if drive.id = payload.id then payload else drive
    let dayHours := hoursSum (updatedDrives.filter fun d => !d.isNightDrive)
    let nightHours := hoursSum (updatedDrives.filter fun d => d.isNightDrive)
    { state with
      drives := updatedDrives
      streaks := { state.streaks with
        current := calculateCurrentStreak today updatedDrives
        longest := calculateLongestStreak updatedDrives }
      user := { state.user with
        completedDayHours := dayHours
        completedNightHours := nightHours } }
  | .deleteDrive payload =>
    let filteredDrives := state.drives.filter fun drive => drive.id ≠ payload
    let remainingDayHours := hoursSum (filteredDrives.filter fun d => !d.isNightDrive)
    let remainingNightHours := hoursSum (filteredDrives.filter fun d => d.isNightDrive)
    { state with
      drives := filteredDrives
      streaks := { state.streaks with
        current := calculateCurrentStreak today filteredDrives
        longest := calculateLongestStreak filteredDrives }
      user := { state.user with
        completedDayHours := remainingDayHours
        completedNightHours := remainingNightHours } }
  | .updateStreaks payload =>
    { state with streaks := applyStreaksPatch state.streaks payload }
  | .useFreezeDay =>
    { state with streaks := { state.streaks with
        freezeDaysUsed := state.streaks.freezeDaysUsed + 1
        freezeDaysThisMonth := state.streaks.freezeDaysThisMonth + 1 } }
  | .updateSettings payload =>
    { state with settings := applySettingsPatch state.settings payload }
  | .completeOnboarding =>
    { state with user := { state.user with onboardingComplete := true } }
  | .resetData =>
    { initialState with loading := false }

/-! ### Persistent store (the storage module: `loadData`/`saveData`) -/

/-- The persisted top-level document. Every field is optional: the structural
validation of `loadData` (`!data.user || !data.drives || ...`) only checks the
presence (truthiness) of the four required top-level keys. -/
structure Document where
  user : Option User := none
  drives : Option (List Drive) := none
  streaks : Option Streaks := none
  settings : Option Settings := none
  version : Option String := none
deriving DecidableEq, Repr

/-- The missing-field validation of `loadData`:
`if (!data.user || !data.drives || !data.streaks || !data.settings) throw`. -/
def isValidDataStructure (d : Document) : Bool :=
  d.user.isSome && d.drives.isSome && d.streaks.isSome && d.settings.isSome

/-- `DEFAULT_DATA` from the storage module. Note that it omits
`streaks.lastFreezeReset` and `settings.temperatureUnit` (both therefore
`none`), unlike the reducer's `initialState`. -/
def DEFAULT_DATA : Document where
  user := some {
    licenseType := none
    licenseDate := none
    goalDayHours := 50
    goalNightHours := 10
    completedDayHours := 0
    completedNightHours := 0
    onboardingComplete := false }
  drives := some []
  streaks := some {
    current := 0
    longest := 0
    lastDriveDate := none
    freezeDaysUsed := 0
    freezeDaysThisMonth := 0
    lastFreezeReset := none }
  settings := some {
    nightTimeStart := "18:00"
    nightTimeEnd := "06:00"
    backupReminder := true
    lastBackupDate := none
    temperatureUnit := none }
  version := some "1.0.1"

/-- What a stored file can hold: it may be absent, hold text that does not
parse as JSON (`JSON.parse` throws), or hold the serialization of a document
(serialize/parse round-trips, so the parsed value is carried directly). -/
inductive FileContent where
  | absent
  | corrupt
  | json (d : Document)
deriving DecidableEq, Repr

/-- The two files owned by the store (`data.json` and `backup.json`). -/
structure FSState where
  main : FileContent
  backup : FileContent
deriving DecidableEq, Repr

/-- A static fault model for the file-system collaborator: each flag makes the
corresponding primitive throw (`StorageIOError`) every time it is called.
`false` everywhere models a healthy file system. -/
structure Faults where
  dir : Bool := false
  infoMain : Bool := false
  readMain : Bool := false
  copy : Bool := false
  write : Bool := false
  infoBackup : Bool := false
  readBackup : Bool := false
deriving DecidableEq, Repr

/-- No faults: every file-system primitive succeeds. -/
def noFaults : Faults := {}

/-- `saveData(data)` from the storage module, returning the source's boolean
together with the file-system state after the call. The body is a direct
transcription of the `try` block: ensure the directory, stat the primary, copy
the primary to the backup location when it exists, then serialize and write the
primary; the `catch` turns any thrown `StorageIOError` into `false`, keeping
whatever partial mutations already happened. -/
def saveData (flt : Faults) (fs : FSState) (d : Document) : Bool × FSState :=
  if flt.dir then (false, fs)
  else if flt.infoMain then (false, fs)
  else
    let mainExists := fs.main ≠ FileContent.absent
    if mainExists ∧ flt.copy then (false, fs)
    else
      let fs1 := if mainExists then { fs with backup := fs.main } else fs
      if flt.write then (false, fs1)
      else (true, { fs1 with main := FileContent.json d })

/-- The last-resort tail of `loadData`'s `catch` block:
`await saveData(DEFAULT_DATA); return DEFAULT_DATA;` (the boolean result of the
save is ignored). -/
def loadDefault (flt : Faults) (fs : FSState) : Document × FSState :=
  let r := saveData flt fs DEFAULT_DATA
  (DEFAULT_DATA, r.2)

/-- The `catch` block of `loadData`: stat the backup; if it exists, read and
parse it, re-save it as primary (result ignored) and return it — note that the
backup is **not** run through the missing-field validation. Any failure in the
inner `try` (stat/read fault, or unparsable backup), or an absent backup, falls
through to the last-resort default. -/
def loadFallback (flt : Faults) (fs : FSState) : Document × FSState :=
  if flt.infoBackup then loadDefault flt fs
  else if fs.backup = FileContent.absent then loadDefault flt fs
  else if flt.readBackup then loadDefault flt fs
  else
    match fs.backup with
    | FileContent.json backupData =>
      let r := saveData flt fs backupData
      (backupData, r.2)
    | _ => loadDefault flt fs

/-- `loadData()` from the storage module: first-run initialization when the
primary is absent; otherwise read, parse and structurally validate the primary;
any thrown error (directory/stat/read fault, parse failure, failed validation)
lands in the `catch` modelled by `loadFallback`. -/
def loadData (flt : Faults) (fs : FSState) : Document × FSState :=
  if flt.dir then loadFallback flt fs
  else if flt.infoMain then loadFallback flt fs
  else if fs.main = FileContent.absent then
    let r := saveData flt fs DEFAULT_DATA
    (DEFAULT_DATA, r.2)
  else if flt.readMain then loadFallback flt fs
  else
    match fs.main with
    | FileContent.json data =>
      if isValidDataStructure data then (data, fs) else loadFallback flt fs
    | _ => loadFallback flt fs

/-! ### Time utilities (`timeToMinutes`, `isValidTime`) -/

/-- JS `String.prototype.split(':')` on a character list: always returns at
least one part; a separator at the end contributes a trailing empty part. -/
def splitColon : List Char → List (List Char)
  | [] => [[]]
  | c :: cs =>
    if c = ':' then [] :: splitColon cs
    else
      match splitColon cs with
      | [] => [[c]]
      | p :: ps => (c :: p) :: ps

/-- The value of a digit string. -/
def digitsToNat (s : List Char) : Nat :=
  s.foldl (fun acc c => acc * 10 + (c.toNat - 48)) 0

/-- JS `Number(s)`, modelled on the fragment the time utilities can feed it:
the empty string coerces to 0, a non-empty all-digit string to its value, and
anything else to `NaN` (modelled as `none`). -/
def jsNumber (s : List Char) : Option Int :=
  if s.isEmpty then some 0
  else if s.all Char.isDigit then some (digitsToNat s) else none

/-- `timeToMinutes(time)` from the time-utilities module:
`const [hours, minutes] = time.split(':').map(Number); return hours*60+minutes`.
Destructuring a too-short array yields `undefined`, and arithmetic with
`undefined` or `NaN` yields `NaN`, so the result is `none` (NaN) unless the
first two parts both coerce to numbers; extra parts are ignored. The function
never throws. -/
def timeToMinutes (time : List Char) : Option Int :=
  match (splitColon time).map jsNumber with
  | some hours :: some minutes :: _ => some (hours * 60 + minutes)
  | _ => none

/-- The minutes half of the `isValidTime` regex: `[0-5][0-9]`. -/
def minutePair (m1 m2 : Char) : Bool :=
  (decide ('0' ≤ m1) && decide (m1 ≤ '5')) && m2.isDigit

/-- `isValidTime(time)`: the regex `^([0-1]?[0-9]|2[0-3]):[0-5][0-9]$`. -/
def isValidTime (time : List Char) : Bool :=
  match time with
  | [h1, c, m1, m2] =>
    decide (c = ':') && h1.isDigit && minutePair m1 m2
  | [h1, h2, c, m1, m2] =>
    decide (c = ':') &&
      (((decide (h1 = '0') || decide (h1 = '1')) && h2.isDigit) ||
        (decide (h1 = '2') && (decide ('0' ≤ h2) && decide (h2 ≤ '3')))) &&
      minutePair m1 m2
  | _ => false

/-! ### Definitions used by the claim statements -/

/-- The current-streak walk exactly as the specification words it ("the streak
continues if the next unique date (in descending order) equals the current
check date or check date − 1 day; on match, decrement check date by one day and
increment streak; on a gap (date strictly earlier than check date − 1), stop").
Written from the spec, for comparison with the source's `streakWalk`. -/
def specStreakWalk (today : Int) : List Int → Int → Nat → Nat
  | [], _, streak => streak
  | d :: ds, checkDate, streak =>
    if d = checkDate ∨ d = checkDate - 1 then
      specStreakWalk today ds (checkDate - 1) (streak + 1)
    else if d < checkDate - 1 then
      streak
    else
      specStreakWalk today ds checkDate streak

/-- The specification's description of `calculateCurrentStreak`: 0 on an empty
list, otherwise the spec's walk over the unique dates sorted descending,
starting with check date = today. Written from the spec, for comparison with
the source's `calculateCurrentStreak`. -/
def specCurrentStreak (today : Int) (drives : List Drive) : Nat :=
  if drives.isEmpty then 0
  else specStreakWalk today (uniqueDatesDesc drives) today 0

/-- A state whose streak fields are consistent with its two consecutive-day
drives (longest streak 2). Used to exhibit that deleting a session decreases
the retained `longest`. -/
def longestDropState : AppState :=
  { initialState with
    drives := [⟨1, some 10, 60, false⟩, ⟨2, some 11, 60, false⟩]
    streaks := { initialState.streaks with
      current := 2, longest := 2, lastDriveDate := some 11 }
    loading := false }

/-- A state holding one non-night drive (id 1, 60 minutes) whose
`completedDayHours` equals the non-night hour sum. Used to exhibit that the
add-then-delete round trip of the aggregate-consistency claim fails when the
added drive reuses an existing id. -/
def duplicateIdState : AppState :=
  { initialState with
    drives := [⟨1, some 10, 60, false⟩]
    user := { initialState.user with completedDayHours := 1 }
    streaks := { initialState.streaks with
      current := 1, longest := 1, lastDriveDate := some 10 }
    loading := false }

/-- An ADD_DRIVE payload with a negative duration (an invalid payload per the
specification's `StateError` taxonomy). -/
def negativeDurationDrive : Drive := ⟨1, some 0, -60, false⟩

/-- A document that parses as JSON but fails the missing-field validation
(every required top-level key absent). -/
def invalidDocument : Document := {}

/-- The reference denotation of a time string, from the spec's words ("parses
`HH:MM` to minutes-since-midnight"): the minutes-since-midnight value read off
the digit characters of an `H:MM` or `HH:MM` string (the shapes accepted by
`isValidTime`), and `none` on any other shape. Written from the spec, for
comparison with the source's `timeToMinutes`. -/
def hhmmValue : List Char → Option Nat
  | [h1, _, m1, m2] =>
    some ((h1.toNat - 48) * 60 + ((m1.toNat - 48) * 10 + (m2.toNat - 48)))
  | [h1, h2, _, m1, m2] =>
    some (((h1.toNat - 48) * 10 + (h2.toNat - 48)) * 60 +
      ((m1.toNat - 48) * 10 + (m2.toNat - 48)))
  | _ => none

/-- Whether a drive is dated strictly after `today` (drives with no date are
not future-dated). -/
def isFutureDrive (today : Int) (d : Drive) : Bool :=
  match d.date with
  | some x => decide (today < x)
  | none => false

/-- The states reachable from `initialState` through the Coordinator's
transition set (SET_USER_INFO, ADD_DRIVE, UPDATE_DRIVE, DELETE_DRIVE,
USE_FREEZE_DAY, UPDATE_SETTINGS, COMPLETE_ONBOARDING, RESET), each taken at an
arbitrary clock value. -/
inductive Reachable : AppState → Prop where
  | init : Reachable initialState
  | setUserInfo {s : AppState} (today : Int) (p : UserPatch) :
      Reachable s → Reachable (drivingReducer today s (Action.setUserInfo p))
  | addDrive {s : AppState} (today : Int) (p : Drive) :
      Reachable s → Reachable (drivingReducer today s (Action.addDrive p))
  | updateDrive {s : AppState} (today : Int) (p : Drive) :
      Reachable s → Reachable (drivingReducer today s (Action.updateDrive p))
  | deleteDrive {s : AppState} (today : Int) (i : Nat) :
      Reachable s → Reachable (drivingReducer today s (Action.deleteDrive i))
  | useFreezeDay {s : AppState} (today : Int) :
      Reachable s → Reachable (drivingReducer today s Action.useFreezeDay)
  | updateSettings {s : AppState} (today : Int) (p : SettingsPatch) :
      Reachable s → Reachable (drivingReducer today s (Action.updateSettings p))
  | completeOnboarding {s : AppState} (today : Int) :
      Reachable s → Reachable (drivingReducer today s Action.completeOnboarding)
  | resetData {s : AppState} (today : Int) :
      Reachable s → Reachable (drivingReducer today s Action.resetData)

/-! ### Theorems -/

/-- C9: for every state, USE_FREEZE_DAY increments `streaks.freezeDaysUsed`
and `streaks.freezeDaysThisMonth` by exactly 1 — unconditionally, with no cap
check (the universal quantification over `s` covers `freezeDaysThisMonth ≥ 10`)
— and leaves `user`, `drives`, `settings` and every other `streaks` field
unchanged. -/
theorem claim_c9_freeze_day_frame (today : Int) (s : AppState) :
    (drivingReducer today s Action.useFreezeDay).streaks.freezeDaysUsed
        = s.streaks.freezeDaysUsed + 1 ∧
    (drivingReducer today s Action.useFreezeDay).streaks.freezeDaysThisMonth
        = s.streaks.freezeDaysThisMonth + 1 ∧
    (drivingReducer today s Action.useFreezeDay).user = s.user ∧
    (drivingReducer today s Action.useFreezeDay).drives = s.drives ∧
    (drivingReducer today s Action.useFreezeDay).settings = s.settings ∧
    (drivingReducer today s Action.useFreezeDay).streaks.current = s.streaks.current ∧
    (drivingReducer today s Action.useFreezeDay).streaks.longest = s.streaks.longest ∧
    (drivingReducer today s Action.useFreezeDay).streaks.lastDriveDate
        = s.streaks.lastDriveDate ∧
    (drivingReducer today s Action.useFreezeDay).streaks.lastFreezeReset
        = s.streaks.lastFreezeReset :=
  ⟨rfl, rfl, rfl, rfl, rfl, rfl, rfl, rfl, rfl⟩

/-- C9 witness: the frame theorem instantiated at a concrete state whose
`freezeDaysThisMonth` is already 10 (the transition still increments to 11). -/
theorem claim_c9_freeze_day_frame_witness :
    (drivingReducer 0
        { initialState with streaks :=
          { initialState.streaks with freezeDaysUsed := 10, freezeDaysThisMonth := 10 } }
        Action.useFreezeDay).streaks.freezeDaysThisMonth = 11 :=
  (claim_c9_freeze_day_frame 0
    { initialState with streaks :=
      { initialState.streaks with freezeDaysUsed := 10, freezeDaysThisMonth := 10 } }).2.1

/-- C1 counterexample: from a state whose retained `longest` (= 2) is exactly
the longest streak of its two consecutive-day drives, DELETE_DRIVE of one of
them drops `streaks.longest` to 1 < 2 — the retained `longest` is **not**
monotonically non-decreasing across DELETE_DRIVE. -/
theorem claim_c1_counterexample :
    calculateLongestStreak longestDropState.drives = longestDropState.streaks.longest ∧
    (drivingReducer 11 longestDropState (Action.deleteDrive 2)).streaks.longest
      < longestDropState.streaks.longest := by
  constructor
  · decide
  · decide

/-- C1 amended: `streaks.longest` is monotonically non-decreasing across
ADD_DRIVE transitions (retained as `max(previousLongest, recomputed)`), but
UPDATE_DRIVE and DELETE_DRIVE instead overwrite it with the longest streak
recomputed from the resulting drive list, which can be smaller than the
previous value. -/
theorem claim_c1_amended (today : Int) (s : AppState) (p : Drive) (i : Nat) :
    s.streaks.longest ≤ (drivingReducer today s (Action.addDrive p)).streaks.longest ∧
    (drivingReducer today s (Action.updateDrive p)).streaks.longest
      = calculateLongestStreak
          (s.drives.map fun drive => if drive.id = p.id then p else drive) ∧
    (drivingReducer today s (Action.deleteDrive i)).streaks.longest
      = calculateLongestStreak (s.drives.filter fun drive => drive.id ≠ i) :=
  ⟨le_max_left _ _, rfl, rfl⟩

/-- C7 counterexample: the reducer applies an ADD_DRIVE payload with negative
duration instead of rejecting it — the resulting state differs from the state
before the transition (the invalid drive is appended). -/
theorem claim_c7_counterexample :
    negativeDurationDrive.duration < 0 ∧
    (drivingReducer 0 initialState (Action.addDrive negativeDurationDrive)).drives
      = [negativeDurationDrive] ∧
    (drivingReducer 0 initialState (Action.addDrive negativeDurationDrive)).drives
      ≠ initialState.drives := by
  refine ⟨by norm_num [negativeDurationDrive], rfl, by decide⟩

/-- C7 amended: the reducer performs no payload validation at all: every
ADD_DRIVE payload — including one with a negative duration — is appended to
the drive list and the state mutated accordingly; rejection of invalid input
happens only in the UI layer before dispatch, never in the Coordinator. -/
theorem claim_c7_amended (today : Int) (s : AppState) (p : Drive) :
    (drivingReducer today s (Action.addDrive p)).drives = s.drives ++ [p] ∧
    (drivingReducer today s (Action.addDrive p)).user.completedDayHours
      = s.user.completedDayHours +
          (if p.isNightDrive then 0 else p.duration / 60) :=
  ⟨rfl, rfl⟩

/-- C5: `saveData` copies the existing primary to the backup location strictly
before overwriting the primary (so whenever the primary is replaced, the backup
holds the previous primary — one generation behind), and every file-system
failure makes it return `false` to the caller (the state the failure left
behind never has the primary overwritten without the backup copied first). -/
theorem claim_c5_save_backup_before_overwrite (flt : Faults) (fs : FSState)
    (d : Document) :
    ((saveData flt fs d).1 = true →
        (saveData flt fs d).2.main = FileContent.json d ∧
        (fs.main ≠ FileContent.absent → (saveData flt fs d).2.backup = fs.main)) ∧
    ((saveData flt fs d).1 = false → (saveData flt fs d).2.main = fs.main) ∧
    ((flt.dir = true ∨ flt.infoMain = true ∨
        (fs.main ≠ FileContent.absent ∧ flt.copy = true) ∨ flt.write = true) →
        (saveData flt fs d).1 = false) ∧
    ((saveData flt fs d).2.main ≠ fs.main →
        fs.main = FileContent.absent ∨ (saveData flt fs d).2.backup = fs.main) := by
  cases hdir : flt.dir <;> cases hinfo : flt.infoMain <;>
    cases hcopy : flt.copy <;> cases hwrite : flt.write <;>
    by_cases hm : fs.main = FileContent.absent <;>
    simp_all [saveData]

/-- C5 witness: a fault-free save over an existing primary leaves the old
primary in the backup slot and the new document in the primary slot, and a
write fault makes the save return `false`. -/
theorem claim_c5_save_backup_before_overwrite_witness :
    (saveData noFaults ⟨FileContent.json DEFAULT_DATA, FileContent.absent⟩
        invalidDocument).2.backup = FileContent.json DEFAULT_DATA ∧
    (saveData { write := true } ⟨FileContent.json DEFAULT_DATA, FileContent.absent⟩
        invalidDocument).1 = false := by
  constructor
  · exact ((claim_c5_save_backup_before_overwrite noFaults
      ⟨FileContent.json DEFAULT_DATA, FileContent.absent⟩ invalidDocument).1
      (by decide)).2 (by decide)
  · exact (claim_c5_save_backup_before_overwrite { write := true }
      ⟨FileContent.json DEFAULT_DATA, FileContent.absent⟩ invalidDocument).2.2.1
      (Or.inr (Or.inr (Or.inr rfl)))

/-- C3 counterexample: with a corrupt primary and a backup that parses as JSON
but fails the missing-field validation, `loadData` returns the (invalid) backup
content instead of falling back to the hard-coded default — the backup is never
run through the validation the claim describes. -/
theorem claim_c3_counterexample :
    isValidDataStructure invalidDocument = false ∧
    (loadData noFaults ⟨FileContent.corrupt, FileContent.json invalidDocument⟩).1
      = invalidDocument ∧
    invalidDocument ≠ DEFAULT_DATA := by
  refine ⟨rfl, rfl, by decide⟩

/-- C3 amended: when the primary fails to parse or fails the missing-field
validation, `loadData` reads and **parses** (but does not structurally
validate) the backup; any backup that parses as JSON is returned and re-saved
as primary (promotion), even when it lacks the required fields; the hard-coded
default is persisted and returned only when the backup is absent or fails to
parse. (The function is total, so it always produces a document.) -/
theorem claim_c3_amended (fs : FSState)
    (hfail : fs.main = FileContent.corrupt ∨
      ∃ d, fs.main = FileContent.json d ∧ isValidDataStructure d = false) :
    (∀ b, fs.backup = FileContent.json b →
        (loadData noFaults fs).1 = b ∧
        (loadData noFaults fs).2.main = FileContent.json b) ∧
    (fs.backup = FileContent.absent ∨ fs.backup = FileContent.corrupt →
        (loadData noFaults fs).1 = DEFAULT_DATA ∧
        (loadData noFaults fs).2.main = FileContent.json DEFAULT_DATA) := by
  have hne : fs.main ≠ FileContent.absent := by
    rcases hfail with h | ⟨d, h, _⟩ <;> simp [h]
  constructor
  · intro b hb
    rcases hfail with h | ⟨d, h, hv⟩
    · simp [loadData, noFaults, loadFallback, loadDefault, saveData, h, hb, hne]
    · simp [loadData, noFaults, loadFallback, loadDefault, saveData, h, hb, hv, hne]
  · intro hb
    rcases hfail with h | ⟨d, h, hv⟩
    · rcases hb with hb | hb <;>
        simp [loadData, noFaults, loadFallback, loadDefault, saveData, h, hb, hne]
    · rcases hb with hb | hb <;>
        simp [loadData, noFaults, loadFallback, loadDefault, saveData, h, hb, hv, hne]

/-- C3 amended witness: corrupt primary, parsable backup holding the default
document — the backup content is returned and re-established as primary. -/
theorem claim_c3_amended_witness :
    (loadData noFaults ⟨FileContent.corrupt, FileContent.json DEFAULT_DATA⟩).1
      = DEFAULT_DATA ∧
    (loadData noFaults ⟨FileContent.corrupt, FileContent.json DEFAULT_DATA⟩).2.main
      = FileContent.json DEFAULT_DATA :=
  (claim_c3_amended ⟨FileContent.corrupt, FileContent.json DEFAULT_DATA⟩
    (Or.inl rfl)).1 DEFAULT_DATA rfl

/-- Helper: `duplicateIdState` satisfies the day-hour-sum invariant
(its single non-night 60-minute drive sums to its `completedDayHours` of 1). -/
theorem duplicateIdState_hours_inv :
    duplicateIdState.user.completedDayHours
      = hoursSum (duplicateIdState.drives.filter fun d => !d.isNightDrive) := by
  simp [duplicateIdState, initialState, hoursSum]

/-- C4 counterexample: the claim quantifies over every state satisfying the
hour-sum invariant, but when the added session reuses the id of an existing
drive, DELETE_DRIVE of that id removes both drives and `completedDayHours`
does not return to its pre-add value (here 0 instead of 1). -/
theorem claim_c4_counterexample :
    duplicateIdState.user.completedDayHours
      = hoursSum (duplicateIdState.drives.filter fun d => !d.isNightDrive) ∧
    (drivingReducer 11
        (drivingReducer 11 duplicateIdState
          (Action.addDrive ⟨1, some 11, 90, false⟩))
        (Action.deleteDrive 1)).user.completedDayHours
      ≠ duplicateIdState.user.completedDayHours := by
  refine ⟨duplicateIdState_hours_inv, ?_⟩
  simp [drivingReducer, duplicateIdState, initialState, hoursSum]

/-- C4 amended: for every state satisfying the day-hour-sum invariant, an
ADD_DRIVE with duration 90 and `isNightDrive = false` increases
`completedDayHours` by exactly 1.5 and leaves `completedNightHours` unchanged;
and — provided the added session's id does not occur among the existing drives
(ids are unique in the data model) — a subsequent DELETE_DRIVE of that id
restores `completedDayHours` to its pre-add value. -/
theorem claim_c4_amended (today today2 : Int) (s : AppState) (p : Drive)
    (hdur : p.duration = 90) (hnight : p.isNightDrive = false)
    (hinv : s.user.completedDayHours
      = hoursSum (s.drives.filter fun d => !d.isNightDrive))
    (hfresh : ∀ d ∈ s.drives, d.id ≠ p.id) :
    (drivingReducer today s (Action.addDrive p)).user.completedDayHours
      = s.user.completedDayHours + 3/2 ∧
    (drivingReducer today s (Action.addDrive p)).user.completedNightHours
      = s.user.completedNightHours ∧
    (drivingReducer today2 (drivingReducer today s (Action.addDrive p))
        (Action.deleteDrive p.id)).user.completedDayHours
      = s.user.completedDayHours := by
  refine ⟨?_, ?_, ?_⟩
  · simp [drivingReducer, hdur, hnight]
    norm_num
  · simp [drivingReducer, hnight]
  · have hfilter : ((s.drives ++ [p]).filter fun drive => drive.id ≠ p.id)
        = s.drives := by
      rw [List.filter_append]
      have h1 : (s.drives.filter fun drive => drive.id ≠ p.id) = s.drives :=
        List.filter_eq_self.2 fun d hd => by simpa using hfresh d hd
      have h2 : ([p].filter fun drive => drive.id ≠ p.id) = [] := by simp
      rw [h1, h2, List.append_nil]
    simp only [drivingReducer]
    rw [hfilter, hinv]

/-- C4 amended witness: the theorem instantiated at a one-drive state (id 1,
60 non-night minutes, `completedDayHours = 1`) and a fresh payload (id 2,
90 non-night minutes): hours go 1 → 2.5 → 1. -/
theorem claim_c4_amended_witness :
    (drivingReducer 11 duplicateIdState
        (Action.addDrive ⟨2, some 11, 90, false⟩)).user.completedDayHours
      = duplicateIdState.user.completedDayHours + 3/2 ∧
    (drivingReducer 11 duplicateIdState
        (Action.addDrive ⟨2, some 11, 90, false⟩)).user.completedNightHours
      = duplicateIdState.user.completedNightHours ∧
    (drivingReducer 12 (drivingReducer 11 duplicateIdState
        (Action.addDrive ⟨2, some 11, 90, false⟩))
        (Action.deleteDrive 2)).user.completedDayHours
      = duplicateIdState.user.completedDayHours :=
  claim_c4_amended 11 12 duplicateIdState ⟨2, some 11, 90, false⟩
    (by norm_num) rfl duplicateIdState_hours_inv (by decide)

/-- C2 counterexample: sessions on the two consecutive days ending yesterday
(day numbers 19723 and 19724, with today = 19725). The source's walk compares
against the fixed `yesterday` (today − 1), not `check date − 1`, so it counts
only 1 before breaking, while the walk described by the claim (equality with
check date or check date − 1) counts 2. -/
theorem claim_c2_counterexample :
    calculateCurrentStreak 19725
        [⟨1, some 19724, 60, false⟩, ⟨2, some 19723, 60, false⟩] = 1 ∧
    specCurrentStreak 19725
        [⟨1, some 19724, 60, false⟩, ⟨2, some 19723, 60, false⟩] = 2 ∧
    calculateCurrentStreak 19725
        [⟨1, some 19724, 60, false⟩, ⟨2, some 19723, 60, false⟩]
      ≠ specCurrentStreak 19725
        [⟨1, some 19724, 60, false⟩, ⟨2, some 19723, 60, false⟩] := by
  refine ⟨by decide, by decide, by decide⟩

/-- C2 amended: `calculateCurrentStreak` returns 0 for an empty session list,
and otherwise walks the unique dates sorted descending from check date = today;
the streak continues when the next unique date equals the current check date
**or equals today − 1** (the one-day grace applies only relative to today, not
to the moving check date), so a streak whose most recent date is yesterday
counts as exactly 1 even when more consecutive days precede it. The claim's
concrete examples hold: sessions on 2024-01-01..03 (days 19723–19725) give
current = 3 when today = 2024-01-03 (19725) and current = 0 when today =
2024-01-05 (19727). -/
theorem claim_c2_amended :
    (∀ today : Int, calculateCurrentStreak today [] = 0) ∧
    calculateCurrentStreak 19725
        [⟨1, some 19723, 60, false⟩, ⟨2, some 19724, 60, false⟩,
         ⟨3, some 19725, 60, false⟩] = 3 ∧
    calculateCurrentStreak 19727
        [⟨1, some 19723, 60, false⟩, ⟨2, some 19724, 60, false⟩,
         ⟨3, some 19725, 60, false⟩] = 0 ∧
    calculateCurrentStreak 19725
        [⟨1, some 19723, 60, false⟩, ⟨2, some 19724, 60, false⟩] = 1 := by
  refine ⟨fun _ => rfl, by decide, by decide, by decide⟩

/-- Helper: a digit character's code point lies in [48, 57]. -/
theorem isDigit_toNat {c : Char} (h : c.isDigit = true) :
    48 ≤ c.toNat ∧ c.toNat ≤ 57 := by
  simp [Char.isDigit] at h
  exact h

/-- Helper: a character whose code point lies in [48, 57] is a digit. -/
theorem isDigit_of_toNat {c : Char} (h1 : 48 ≤ c.toNat) (h2 : c.toNat ≤ 57) :
    c.isDigit = true := by
  simp [Char.isDigit]
  exact ⟨h1, h2⟩

/-- Helper: a digit character is not the colon separator. -/
theorem isDigit_ne_colon {c : Char} (h : c.isDigit = true) : ¬(c = ':') := by
  intro e
  subst e
  exact absurd h (by decide)

/-- C6 counterexample: the malformed input `":"` (rejected by the `isValidTime`
format check) is silently coerced — both halves of the split are empty strings,
`Number('')` is 0, and `timeToMinutes` returns 0 rather than failing with a
`ParseError`; other garbage (`"garbage"`) coerces to NaN (`none`), again with
no error surfaced. -/
theorem claim_c6_counterexample :
    isValidTime [':'] = false ∧
    timeToMinutes [':'] = some 0 ∧
    timeToMinutes ['g', 'a', 'r', 'b', 'a', 'g', 'e'] = none := by
  refine ⟨by decide, by decide, by decide⟩

/-- C6 amended: `timeToMinutes` parses every string accepted by the
`isValidTime` format check into exactly the minutes-since-midnight value read
off its digits (`hhmmValue`), a value of at most 1439 (23 hours 59 minutes);
on malformed input it never raises an error and instead returns a JS-coerced
value — NaN (modelled `none`) for most garbage, or even a plain number such as
0 for the input `":"` — so callers must validate with the format check
beforehand. -/
theorem claim_c6_amended :
    (∀ time : List Char, isValidTime time = true →
        ∃ v : Nat, hhmmValue time = some v ∧ v ≤ 1439 ∧
          timeToMinutes time = some (v : Int)) ∧
    timeToMinutes [':'] = some 0 ∧
    timeToMinutes ['g', 'a', 'r', 'b', 'a', 'g', 'e'] = none := by
  refine ⟨?_, by decide, by decide⟩
  intro time h
  rcases time with _ | ⟨c1, _ | ⟨c2, _ | ⟨c3, _ | ⟨c4, _ | ⟨c5, _ | ⟨c6, rest⟩⟩⟩⟩⟩⟩
  · simp [isValidTime] at h
  · simp [isValidTime] at h
  · simp [isValidTime] at h
  · simp [isValidTime] at h
  · simp only [isValidTime, minutePair, Bool.and_eq_true, decide_eq_true_eq] at h
    obtain ⟨⟨hc2, hd1⟩, ⟨hm1l, hm1u⟩, hd4⟩ := h
    subst hc2
    obtain ⟨h1l, h1u⟩ := isDigit_toNat hd1
    obtain ⟨h4l, h4u⟩ := isDigit_toNat hd4
    have h3l : 48 ≤ c3.toNat := hm1l
    have h3u : c3.toNat ≤ 53 := hm1u
    have hd3 : c3.isDigit = true := isDigit_of_toNat h3l (by omega)
    have hne1 : ¬(c1 = ':') := isDigit_ne_colon hd1
    have hne3 : ¬(c3 = ':') := isDigit_ne_colon hd3
    have hne4 : ¬(c4 = ':') := isDigit_ne_colon hd4
    refine ⟨(c1.toNat - 48) * 60 + ((c3.toNat - 48) * 10 + (c4.toNat - 48)),
      rfl, by omega, ?_⟩
    simp [timeToMinutes, splitColon, hne1, hne3, hne4, jsNumber, hd1, hd3, hd4,
      digitsToNat]
  · simp only [isValidTime, minutePair, Bool.and_eq_true, Bool.or_eq_true,
      decide_eq_true_eq] at h
    obtain ⟨⟨hc3, hhour⟩, ⟨hm1l, hm1u⟩, hd5⟩ := h
    subst hc3
    obtain ⟨h5l, h5u⟩ := isDigit_toNat hd5
    have h4l : 48 ≤ c4.toNat := hm1l
    have h4u : c4.toNat ≤ 53 := hm1u
    have hd4 : c4.isDigit = true := isDigit_of_toNat h4l (by omega)
    have hd1 : c1.isDigit = true := by
      rcases hhour with ⟨hc1 | hc1, _⟩ | ⟨hc1, _⟩ <;> subst hc1 <;> decide
    have hd2 : c2.isDigit = true := by
      rcases hhour with ⟨_, hd⟩ | ⟨_, hl, hu⟩
      · exact hd
      · exact isDigit_of_toNat hl (le_trans hu (by decide))
    obtain ⟨h1l, h1u⟩ := isDigit_toNat hd1
    obtain ⟨h2l, h2u⟩ := isDigit_toNat hd2
    have hbound : (c1.toNat - 48) * 10 + (c2.toNat - 48) ≤ 23 := by
      rcases hhour with ⟨hc1 | hc1, _⟩ | ⟨hc1, _, hu⟩ <;> subst hc1
      · have e : ('0' : Char).toNat = 48 := rfl
        rw [e]; omega
      · have e : ('1' : Char).toNat = 49 := rfl
        rw [e]; omega
      · have e : ('2' : Char).toNat = 50 := rfl
        have hu2 : c2.toNat ≤ 51 := hu
        rw [e]; omega
    have hne1 : ¬(c1 = ':') := isDigit_ne_colon hd1
    have hne2 : ¬(c2 = ':') := isDigit_ne_colon hd2
    have hne4 : ¬(c4 = ':') := isDigit_ne_colon hd4
    have hne5 : ¬(c5 = ':') := isDigit_ne_colon hd5
    refine ⟨((c1.toNat - 48) * 10 + (c2.toNat - 48)) * 60 +
      ((c4.toNat - 48) * 10 + (c5.toNat - 48)),
      rfl, by omega, ?_⟩
    simp [timeToMinutes, splitColon, hne1, hne2, hne4, hne5, jsNumber, hd1, hd2,
      hd4, hd5, digitsToNat]
  · simp [isValidTime] at h

/-- C6 amended witness: the parse direction applied to the well-formed input
`"18:30"` pins the concrete result 1110 (= 18 * 60 + 30). -/
theorem claim_c6_amended_witness :
    timeToMinutes ['1', '8', ':', '3', '0'] = some 1110 := by
  obtain ⟨v, hv, _, ht⟩ :=
    claim_c6_amended.1 ['1', '8', ':', '3', '0'] (by decide)
  have hval : hhmmValue ['1', '8', ':', '3', '0'] = some 1110 := by decide
  have hv2 : (1110 : Nat) = v := Option.some_inj.1 (hval.symm.trans hv)
  rw [← hv2] at ht
  simpa using ht

/-- Helper: the sort-descending-then-dedup pipeline yields a strictly
descending list. -/
theorem pairwise_gt_sortDedup (l : List Int) :
    List.Pairwise (· > ·) ((l.insertionSort (· ≥ ·)).dedup) := by
  have hs : List.Sorted (· ≥ ·) ((l.insertionSort (· ≥ ·)).dedup) :=
    List.Pairwise.sublist (List.dedup_sublist _) (List.sorted_insertionSort _ l)
  have hn : ((l.insertionSort (· ≥ ·)).dedup).Nodup := List.nodup_dedup _
  exact (hs.and hn).imp fun {a b} hab => lt_of_le_of_ne hab.1 (Ne.symm hab.2)

/-- Helper: two strictly descending integer lists with the same members are
equal. -/
theorem eq_of_pairwise_gt_of_mem_iff {l1 l2 : List Int}
    (h1 : List.Pairwise (· > ·) l1) (h2 : List.Pairwise (· > ·) l2)
    (hm : ∀ x, x ∈ l1 ↔ x ∈ l2) : l1 = l2 := by
  have hn1 : l1.Nodup := h1.imp fun hab => ne_of_gt hab
  have hn2 : l2.Nodup := h2.imp fun hab => ne_of_gt hab
  exact @List.eq_of_perm_of_sorted _ _ ⟨fun a b x y => absurd x (lt_asymm y)⟩ l1 l2
    ((List.perm_ext_iff_of_nodup hn1 hn2).2 hm) h1 h2

/-- Helper: sorting descending and deduplicating commutes with filtering. -/
theorem sortDedup_filter (l : List Int) (p : Int → Bool) :
    ((l.filter p).insertionSort (· ≥ ·)).dedup
      = ((l.insertionSort (· ≥ ·)).dedup).filter p := by
  refine eq_of_pairwise_gt_of_mem_iff (pairwise_gt_sortDedup _)
    (List.Pairwise.filter p (pairwise_gt_sortDedup l)) ?_
  intro x
  simp [List.mem_dedup, List.mem_insertionSort, List.mem_filter]

/-- Helper: membership in the descending unique-date list is membership among
the drive dates. -/
theorem mem_uniqueDatesDesc {drives : List Drive} {x : Int} :
    x ∈ uniqueDatesDesc drives ↔ x ∈ driveDates drives := by
  simp [uniqueDatesDesc, List.mem_dedup, List.mem_insertionSort]

/-- Helper: the unique-date list walked by `calculateCurrentStreak` is strictly
descending. -/
theorem pairwise_gt_uniqueDatesDesc (drives : List Drive) :
    List.Pairwise (· > ·) (uniqueDatesDesc drives) :=
  pairwise_gt_sortDedup _

/-- Helper: removing the future-dated drives keeps exactly the dates that are
at most `today`. -/
theorem driveDates_filter_future (today : Int) (drives : List Drive) :
    driveDates (drives.filter fun d => !isFutureDrive today d)
      = (driveDates drives).filter fun x => decide (x ≤ today) := by
  induction drives with
  | nil => rfl
  | cons d ds ih =>
    cases hd : d.date with
    | none =>
      simp only [List.filter_cons, isFutureDrive, hd, driveDates,
        List.filterMap_cons]
      simpa [driveDates, hd] using ih
    | some x =>
      have ih2 : List.filterMap Drive.date
            (List.filter (fun d => !isFutureDrive today d) ds)
          = List.filter (fun x => decide (x ≤ today))
              (List.filterMap Drive.date ds) := by
        simpa [driveDates] using ih
      by_cases hx : today < x
      · have h1 : isFutureDrive today d = true := by simp [isFutureDrive, hd, hx]
        have h2 : ¬(x ≤ today) := by omega
        simp [List.filter_cons, h1, driveDates, hd, h2, ih2]
      · have h1 : isFutureDrive today d = false := by simp [isFutureDrive, hd, hx]
        have h2 : x ≤ today := by omega
        simp [List.filter_cons, h1, driveDates, hd, h2, ih2]

/-- Helper: `uniqueDatesDesc` of the future-free drive list is the filtered
unique-date list. -/
theorem uniqueDatesDesc_filter_future (today : Int) (drives : List Drive) :
    uniqueDatesDesc (drives.filter fun d => !isFutureDrive today d)
      = (uniqueDatesDesc drives).filter fun x => decide (x ≤ today) := by
  unfold uniqueDatesDesc
  rw [driveDates_filter_future, sortDedup_filter]

/-- Helper: before the first match (check date = today), a future date is
skipped by the walk: it matches neither clause and is not below the check
date. -/
theorem streakWalk_skip (today d : Int) (ds : List Int) (s : Nat)
    (hd : today < d) :
    streakWalk today (d :: ds) today s = streakWalk today ds today s := by
  have h1 : ¬(d = today ∨ d = today - 1) := by omega
  have h2 : ¬(d < today) := by omega
  simp [streakWalk, h1, h2]

/-- Helper: on a strictly descending list the walk from `today` computes the
same value as on the list with the future dates filtered out. -/
theorem streakWalk_filter_le (today : Int) :
    ∀ u : List Int, List.Pairwise (· > ·) u → ∀ s : Nat,
      streakWalk today u today s
        = streakWalk today (u.filter fun x => decide (x ≤ today)) today s := by
  intro u
  induction u with
  | nil => intro _ _; rfl
  | cons d ds ih =>
    intro hp s
    by_cases hd : d ≤ today
    · have hds : (ds.filter fun x => decide (x ≤ today)) = ds := by
        refine List.filter_eq_self.2 fun x hx => ?_
        have hlt : d > x := (List.pairwise_cons.1 hp).1 x hx
        simp only [decide_eq_true_eq]
        omega
      have hcons : ((d :: ds).filter fun x => decide (x ≤ today)) = d :: ds := by
        rw [List.filter_cons]
        simp [hd, hds]
      rw [hcons]
    · have htoday : today < d := by omega
      have hcons : ((d :: ds).filter fun x => decide (x ≤ today))
          = ds.filter fun x => decide (x ≤ today) := by
        rw [List.filter_cons]
        simp [hd]
      rw [hcons, streakWalk_skip today d ds s htoday]
      exact ih (List.pairwise_cons.1 hp).2 s

/-- C10: for every drive list and clock value, `calculateCurrentStreak`
computes the same value as on the list with all drives dated strictly after
today removed: future-dated drives are skipped by the descending walk and never
affect the result. -/
theorem claim_c10_future_drives_ignored (today : Int) (drives : List Drive) :
    calculateCurrentStreak today drives
      = calculateCurrentStreak today
          (drives.filter fun d => !isFutureDrive today d) := by
  unfold calculateCurrentStreak
  by_cases hempty : drives.isEmpty
  · have hnil : drives = [] := by
      cases drives with
      | nil => rfl
      | cons d ds => simp at hempty
    subst hnil
    rfl
  · by_cases hfe : (drives.filter fun d => !isFutureDrive today d).isEmpty
    · have hnil : (drives.filter fun d => !isFutureDrive today d) = [] := by
        cases hfcase : (drives.filter fun d => !isFutureDrive today d) with
        | nil => rfl
        | cons d ds => rw [hfcase] at hfe; simp at hfe
      have hfilt : ((uniqueDatesDesc drives).filter fun x => decide (x ≤ today))
          = [] := by
        rw [← uniqueDatesDesc_filter_future, hnil]
        rfl
      simp only [hempty, hfe, if_true, if_false, Bool.false_eq_true, ite_false,
        ite_true]
      rw [streakWalk_filter_le today _ (pairwise_gt_uniqueDatesDesc drives) 0,
        hfilt]
      rfl
    · simp only [hempty, hfe, Bool.false_eq_true, ite_false]
      rw [uniqueDatesDesc_filter_future today drives]
      exact streakWalk_filter_le today _ (pairwise_gt_uniqueDatesDesc drives) 0

/-- Helper: the walk never decreases the running streak. -/
theorem streakWalk_ge (today : Int) :
    ∀ (u : List Int) (c : Int) (s : Nat), s ≤ streakWalk today u c s := by
  intro u
  induction u with
  | nil => intro c s; exact le_refl s
  | cons d ds ih =>
    intro c s
    simp only [streakWalk]
    split
    · exact le_trans (Nat.le_succ s) (ih _ _)
    · split
      · exact le_refl s
      · exact ih _ _

/-- Helper: after the first match the walk's check date stays locked to
`today - streak`, and the dates it counts beyond that point form the
consecutive run `today - s, today - s - 1, …` inside the list: if the walk
from check date `today - s` (with `s ≥ 1` and every remaining date at most
`today - s`) returns `s + k`, then the `k` dates it matched are exactly
`today - s - i` for `i < k`. -/
theorem streakWalk_chain (today : Int) :
    ∀ u : List Int, List.Pairwise (· > ·) u →
      ∀ s k : Nat, 1 ≤ s → (∀ x ∈ u, x ≤ today - (s : Int)) →
        streakWalk today u (today - (s : Int)) s = s + k →
        ∀ i : Nat, i < k → (today - (s : Int) - (i : Int)) ∈ u := by
  intro u
  induction u with
  | nil =>
    intro _ s k _ _ hw i hi
    simp only [streakWalk] at hw
    omega
  | cons d ds ih =>
    intro hp s k hs hb hw i hi
    have hdle : d ≤ today - (s : Int) := hb d (List.mem_cons_self _ _)
    by_cases hmatch : d = today - (s : Int) ∨ d = today - 1
    · have hd : d = today - (s : Int) := by rcases hmatch with h | h <;> omega
      rw [streakWalk, if_pos hmatch] at hw
      have hge := streakWalk_ge today ds (today - (s : Int) - 1) (s + 1)
      rw [hw] at hge
      have hk : 1 ≤ k := by omega
      have harith : today - (s : Int) - 1 = today - ((s + 1 : Nat) : Int) := by
        push_cast
        ring
      have hb2 : ∀ x ∈ ds, x ≤ today - ((s + 1 : Nat) : Int) := by
        intro x hx
        have hgt : d > x := (List.pairwise_cons.1 hp).1 x hx
        push_cast
        omega
      have hw2 : streakWalk today ds (today - ((s + 1 : Nat) : Int)) (s + 1)
          = (s + 1) + (k - 1) := by
        rw [← harith]
        omega
      have hchain := ih (List.pairwise_cons.1 hp).2 (s + 1) (k - 1)
        (by omega) hb2 hw2
      cases i with
      | zero =>
        simp only [Nat.cast_zero, sub_zero]
        exact hd ▸ List.mem_cons_self _ _
      | succ j =>
        have hji := hchain j (by omega)
        have harith2 : today - (s : Int) - ((j + 1 : Nat) : Int)
            = today - ((s + 1 : Nat) : Int) - (j : Int) := by
          push_cast
          ring
        rw [harith2]
        exact List.mem_cons_of_mem _ hji
    · have hne : ¬(d = today - (s : Int)) := fun e => hmatch (Or.inl e)
      have hlt : d < today - (s : Int) := lt_of_le_of_ne hdle hne
      rw [streakWalk, if_neg hmatch, if_pos hlt] at hw
      omega

/-- Helper: the walk from `today` with streak 0 either returns 0 or counts a
run of `k` consecutive dates present in the list, starting at `today` or at
`today - 1` (the fixed yesterday); in the latter case the run has length 1. -/
theorem streakWalk_start (today : Int) :
    ∀ u : List Int, List.Pairwise (· > ·) u →
      ∀ k : Nat, streakWalk today u today 0 = k →
        k = 0 ∨ (1 ≤ k ∧ ∃ d0 : Int, (d0 = today ∨ d0 = today - 1) ∧
          ∀ i : Nat, i < k → (d0 - (i : Int)) ∈ u) := by
  intro u
  induction u with
  | nil =>
    intro _ k hw
    left
    simpa [streakWalk] using hw.symm
  | cons d ds ih =>
    intro hp k hw
    by_cases hmatch : d = today ∨ d = today - 1
    · right
      rw [streakWalk, if_pos hmatch] at hw
      simp only [Nat.zero_add] at hw
      have hge := streakWalk_ge today ds (today - 1) 1
      rw [hw] at hge
      refine ⟨hge, ?_⟩
      have harith : today - 1 = today - ((1 : Nat) : Int) := by norm_num
      have hb2 : ∀ x ∈ ds, x ≤ today - ((1 : Nat) : Int) := by
        intro x hx
        have hgt : d > x := (List.pairwise_cons.1 hp).1 x hx
        have hdle : d ≤ today := by rcases hmatch with h | h <;> omega
        push_cast
        omega
      have hw2 : streakWalk today ds (today - ((1 : Nat) : Int)) 1
          = 1 + (k - 1) := by
        rw [← harith]
        omega
      have hchain := streakWalk_chain today ds (List.pairwise_cons.1 hp).2 1
        (k - 1) (le_refl 1) hb2 hw2
      rcases hmatch with hd | hd
      · refine ⟨today, Or.inl rfl, ?_⟩
        intro i hi
        cases i with
        | zero =>
          simp only [Nat.cast_zero, sub_zero]
          exact hd ▸ List.mem_cons_self _ _
        | succ j =>
          have hji := hchain j (by omega)
          have harith2 : today - ((j + 1 : Nat) : Int)
              = today - ((1 : Nat) : Int) - (j : Int) := by
            push_cast
            ring
          rw [harith2]
          exact List.mem_cons_of_mem _ hji
      · refine ⟨today - 1, Or.inr rfl, ?_⟩
        intro i hi
        cases i with
        | zero =>
          simp only [Nat.cast_zero, sub_zero]
          exact hd ▸ List.mem_cons_self _ _
        | succ j =>
          exfalso
          have hmem := hchain 0 (by omega)
          have hgt : d > today - ((1 : Nat) : Int) - ((0 : Nat) : Int) :=
            (List.pairwise_cons.1 hp).1 _ hmem
          rw [hd] at hgt
          simp at hgt
    · by_cases hlt : d < today
      · left
        rw [streakWalk, if_neg hmatch, if_pos hlt] at hw
        omega
      · rw [streakWalk, if_neg hmatch, if_neg hlt] at hw
        rcases ih (List.pairwise_cons.1 hp).2 k hw with h0 | ⟨hk, d0, hd0, hchain⟩
        · exact Or.inl h0
        · exact Or.inr ⟨hk, d0, hd0,
            fun i hi => List.mem_cons_of_mem _ (hchain i hi)⟩

/-- Helper: the pairwise scan never returns less than its running maximum. -/
theorem longestScan_ge :
    ∀ (ds : List Int) (p : Int) (cur long : Nat),
      long ≤ longestScan ds p cur long := by
  intro ds
  induction ds with
  | nil => intro p cur long; exact le_refl long
  | cons d rest ih =>
    intro p cur long
    simp only [longestScan]
    split
    · exact le_trans (le_max_left _ _) (ih _ _ _)
    · exact ih _ _ _

/-- Helper: the pairwise scan is monotone in its running streak and maximum. -/
theorem longestScan_mono :
    ∀ (ds : List Int) (p : Int) (cur1 cur2 long1 long2 : Nat),
      cur2 ≤ cur1 → long2 ≤ long1 →
      longestScan ds p cur2 long2 ≤ longestScan ds p cur1 long1 := by
  intro ds
  induction ds with
  | nil => intro p cur1 cur2 long1 long2 _ hl; exact hl
  | cons d rest ih =>
    intro p cur1 cur2 long1 long2 hc hl
    simp only [longestScan]
    split
    · exact ih _ _ _ _ _ (by omega) (by omega)
    · exact ih _ _ _ _ _ (le_refl 1) hl

/-- Helper: if the scan's previous element is `c` and the consecutive run
`c + 1, …, c + (k-1)` is present in the remaining (strictly ascending,
all-above-`c`) list, the scan reaches at least `cur + (k - 1)`. -/
theorem longestScan_chain :
    ∀ (as : List Int) (c : Int) (k cur long : Nat),
      List.Pairwise (· < ·) as → (∀ x ∈ as, c < x) → cur ≤ long →
      (∀ i : Nat, 1 ≤ i → i < k → c + (i : Int) ∈ as) →
      cur + (k - 1) ≤ longestScan as c cur long := by
  intro as
  induction as with
  | nil =>
    intro c k cur long _ _ hcl hchain
    have hk : k ≤ 1 := by
      by_contra hgt
      exact absurd (hchain 1 (le_refl 1) (by omega)) (List.not_mem_nil _)
    simp only [longestScan]
    omega
  | cons b bs ih =>
    intro c k cur long hp hgt hcl hchain
    by_cases hk : k ≤ 1
    · have hge := longestScan_ge (b :: bs) c cur long
      omega
    · have hmem : c + ((1 : Nat) : Int) ∈ b :: bs := hchain 1 (le_refl 1) (by omega)
      have hb : b = c + 1 := by
        rcases List.mem_cons.1 hmem with h | h
        · simpa using h.symm
        · have h1 : b < c + ((1 : Nat) : Int) := (List.pairwise_cons.1 hp).1 _ h
          have h2 : c < b := hgt b (List.mem_cons_self _ _)
          push_cast at h1
          omega
      have hcond : b - c = 1 := by omega
      rw [longestScan, if_pos hcond]
      have hgt2 : ∀ x ∈ bs, b < x := (List.pairwise_cons.1 hp).1
      have hchain2 : ∀ i : Nat, 1 ≤ i → i < k - 1 → b + (i : Int) ∈ bs := by
        intro i h1 h2
        have hm : c + ((i + 1 : Nat) : Int) ∈ b :: bs :=
          hchain (i + 1) (by omega) (by omega)
        rcases List.mem_cons.1 hm with h | h
        · exfalso
          rw [hb] at h
          push_cast at h
          omega
        · have he : b + (i : Int) = c + ((i + 1 : Nat) : Int) := by
            rw [hb]
            push_cast
            ring
          rw [he]
          exact h
      have hres := ih b (k - 1) (cur + 1) (max long (cur + 1))
        (List.pairwise_cons.1 hp).2 (fun x hx => hgt2 x hx)
        (le_max_right _ _) hchain2
      omega

/-- Helper: membership in the ascending unique-date list is membership among
the drive dates. -/
theorem mem_uniqueDatesAsc {drives : List Drive} {x : Int} :
    x ∈ uniqueDatesAsc drives ↔ x ∈ driveDates drives := by
  simp [uniqueDatesAsc, driveDates, List.mem_insertionSort, List.mem_filterMap,
    List.mem_dedup, List.mem_map]

/-- Helper: the unique-date list scanned by `calculateLongestStreak` is
strictly ascending. -/
theorem pairwise_lt_uniqueDatesAsc (drives : List Drive) :
    List.Pairwise (· < ·) (uniqueDatesAsc drives) := by
  have hs : List.Sorted (· ≤ ·)
      ((((drives.map Drive.date).dedup).filterMap id).insertionSort (· ≤ ·)) :=
    List.sorted_insertionSort _ _
  have hn0 : (((drives.map Drive.date).dedup).filterMap id).Nodup :=
    List.Nodup.filterMap
      (fun a a' b hb hb' => by cases a <;> cases a' <;> simp_all)
      (List.nodup_dedup _)
  have hn : ((((drives.map Drive.date).dedup).filterMap id).insertionSort
      (· ≤ ·)).Nodup := ((List.perm_insertionSort _ _).nodup_iff).2 hn0
  exact (hs.and hn).imp fun {a b} hab => lt_of_le_of_ne hab.1 hab.2

/-- Helper: a consecutive ascending run of `k ≥ 1` dates inside the strictly
ascending list forces the pairwise scan over that list (the body of
`calculateLongestStreak`) to return at least `k`. -/
theorem ascChain_le_scan :
    ∀ v : List Int, List.Pairwise (· < ·) v →
      ∀ (c : Int) (k : Nat), 1 ≤ k → (∀ j : Nat, j < k → c + (j : Int) ∈ v) →
      k ≤ (match v with
           | [] => 0
           | d :: ds => longestScan ds d 1 1) := by
  intro v
  induction v with
  | nil =>
    intro _ c k hk hchain
    exact absurd (hchain 0 (by omega)) (List.not_mem_nil _)
  | cons a as ih =>
    intro hp c k hk hchain
    have hc_mem : c ∈ a :: as := by simpa using hchain 0 (by omega)
    have hac : a ≤ c := by
      rcases List.mem_cons.1 hc_mem with h | h
      · omega
      · have := (List.pairwise_cons.1 hp).1 _ h
        omega
    by_cases hca : a = c
    · subst hca
      have hchain2 : ∀ i : Nat, 1 ≤ i → i < k → a + (i : Int) ∈ as := by
        intro i h1 h2
        rcases List.mem_cons.1 (hchain i h2) with h | h
        · exfalso
          omega
        · exact h
      have := longestScan_chain as a k 1 1 (List.pairwise_cons.1 hp).2
        (List.pairwise_cons.1 hp).1 (le_refl 1) hchain2
      show k ≤ longestScan as a 1 1
      omega
    · have hlt : a < c := lt_of_le_of_ne hac hca
      have hchain2 : ∀ j : Nat, j < k → c + (j : Int) ∈ as := by
        intro j hj
        rcases List.mem_cons.1 (hchain j hj) with h | h
        · exfalso
          omega
        · exact h
      have hres := ih (List.pairwise_cons.1 hp).2 c k hk hchain2
      cases as with
      | nil => exact absurd (hchain2 0 (by omega)) (List.not_mem_nil _)
      | cons b bs =>
        have hstep : longestScan bs b 1 1 ≤ longestScan (b :: bs) a 1 1 := by
          simp only [longestScan]
          split
          · exact longestScan_mono bs b 2 1 (max 1 2) 1 (by omega)
              (le_max_left _ _)
          · exact le_refl _
        exact le_trans hres hstep

/-- Helper: the streak-engine inequality — for every drive list and clock
value, the freshly computed current streak is at most the freshly computed
longest streak. -/
theorem current_le_longest (today : Int) (drives : List Drive) :
    calculateCurrentStreak today drives ≤ calculateLongestStreak drives := by
  by_cases hempty : drives.isEmpty
  · simp [calculateCurrentStreak, hempty]
  · have hcc : calculateCurrentStreak today drives
        = streakWalk today (uniqueDatesDesc drives) today 0 := by
      simp [calculateCurrentStreak, hempty]
    rcases streakWalk_start today (uniqueDatesDesc drives)
        (pairwise_gt_uniqueDatesDesc drives)
        (streakWalk today (uniqueDatesDesc drives) today 0) rfl with
      h0 | ⟨hk, d0, _, hchain⟩
    · rw [hcc, h0]
      exact Nat.zero_le _
    · have hasc : ∀ j : Nat,
          j < streakWalk today (uniqueDatesDesc drives) today 0 →
          (d0 - ((streakWalk today (uniqueDatesDesc drives) today 0 : Int) - 1))
              + (j : Int) ∈ uniqueDatesAsc drives := by
        intro j hj
        have hmem := hchain
          (streakWalk today (uniqueDatesDesc drives) today 0 - 1 - j) (by omega)
        have hmem2 := mem_uniqueDatesAsc.2 (mem_uniqueDatesDesc.1 hmem)
        have he : d0
              - ((streakWalk today (uniqueDatesDesc drives) today 0 : Int) - 1)
              + (j : Int)
            = d0 - ((streakWalk today (uniqueDatesDesc drives) today 0
                - 1 - j : Nat) : Int) := by
          omega
        rw [he]
        exact hmem2
      have hscan := ascChain_le_scan (uniqueDatesAsc drives)
        (pairwise_lt_uniqueDatesAsc drives)
        (d0 - ((streakWalk today (uniqueDatesDesc drives) today 0 : Int) - 1))
        (streakWalk today (uniqueDatesDesc drives) today 0) hk hasc
      rw [hcc]
      cases hv : uniqueDatesAsc drives with
      | nil =>
        exfalso
        have hd0 := hchain 0 (by omega)
        have hd0asc := mem_uniqueDatesAsc.2 (mem_uniqueDatesDesc.1 hd0)
        rw [hv] at hd0asc
        exact absurd hd0asc (List.not_mem_nil _)
      | cons a as =>
        rw [hv] at hscan
        have hcl : calculateLongestStreak drives = longestScan as a 1 1 := by
          simp [calculateLongestStreak, hempty, hv]
        rw [hcl]
        exact hscan

/-- C8: in every state reachable from the initial state by the Coordinator's
transitions (SET_USER_INFO, ADD_DRIVE, UPDATE_DRIVE, DELETE_DRIVE,
USE_FREEZE_DAY, UPDATE_SETTINGS, COMPLETE_ONBOARDING, RESET),
`streaks.current ≤ streaks.longest` holds. -/
theorem claim_c8_current_le_longest (s : AppState) (h : Reachable s) :
    s.streaks.current ≤ s.streaks.longest := by
  induction h with
  | init => exact le_refl 0
  | @setUserInfo s today p _ ih => exact ih
  | @addDrive s today p _ _ =>
    exact le_trans (current_le_longest today (s.drives ++ [p]))
      (le_max_right s.streaks.longest (calculateLongestStreak (s.drives ++ [p])))
  | @updateDrive s today p _ _ =>
    exact current_le_longest today
      (s.drives.map fun drive => if drive.id = p.id then p else drive)
  | @deleteDrive s today i _ _ =>
    exact current_le_longest today (s.drives.filter fun drive => drive.id ≠ i)
  | @useFreezeDay s today _ ih => exact ih
  | @updateSettings s today p _ ih => exact ih
  | @completeOnboarding s today _ ih => exact ih
  | @resetData s today _ _ => exact le_refl 0

/-- C8 witness: the invariant applied to the state reached by one ADD_DRIVE
from the initial state. -/
theorem claim_c8_current_le_longest_witness :
    (drivingReducer 11 initialState
        (Action.addDrive ⟨1, some 11, 60, false⟩)).streaks.current
      ≤ (drivingReducer 11 initialState
        (Action.addDrive ⟨1, some 11, 60, false⟩)).streaks.longest :=
  claim_c8_current_le_longest _
    (Reachable.addDrive 11 ⟨1, some 11, 60, false⟩ Reachable.init)

end Drively
